import Mathlib

/-!
ass-measure: bounding boxes of rendered subtitle lines

A shallow embedding of `src/ass_measure.c` (the function
`measure_subtitle_dimensions`) and of the two Node bindings
(`ass-addon/addon.cpp`, `src/ass_measure_binding.cpp`).

* C `int` values are integers; every `int` operation that can leave the
  32-bit range (`x0 + w`, `x_max - x_min`) is reduced with `wrap32`;
  `long long` addition is reduced with `wrap64`.
* A pointer is an `Option`: `none` is `NULL`.
* The rendering engine (libass), `calloc` and `strdup` are outside the
  repository; their outcomes are the fields of `Env`.
* Every acquisition and release the function performs is appended to a trace
  of `Op`s, in program order.
-/

namespace AssMeasure

/-! ## Machine integers -/

/-- The constant `INT_MAX` of `<limits.h>` for a 32-bit `int`. -/
def INT_MAX : Int := 2147483647

/-- The constant `INT_MIN` of `<limits.h>` for a 32-bit `int`. -/
def INT_MIN : Int := -2147483648

/-- Two's complement reduction of an integer to a 32-bit signed `int`. -/
def wrap32 (v : Int) : Int := (v + 2147483648) % 4294967296 - 2147483648

/-- Two's complement reduction of an integer to a 64-bit signed `long long`. -/
def wrap64 (v : Int) : Int :=
  (v + 9223372036854775808) % 18446744073709551616 - 9223372036854775808

/-! ## Data model (`ass_measure.h` and the fields of libass the code reads) -/

/-- One node of the `ASS_Image` chain: the fields the reduction reads. The
chain itself (`next`) is the list. -/
structure ASS_Image where
  w : Int
  h : Int
  dst_x : Int
  dst_y : Int
  deriving DecidableEq

/-- One `ASS_Event` of a track: the fields the code reads. -/
structure ASS_Event where
  Start : Int
  Duration : Int
  Text : String
  deriving DecidableEq

/-- The struct `SubtitleDimensions`. -/
structure SubtitleDimensions where
  width : Int
  height : Int
  deriving DecidableEq

/-- The struct `SubtitleLineInfo`; `text = none` is a `NULL` text pointer. -/
structure SubtitleLineInfo where
  text : Option String
  dimensions : SubtitleDimensions
  start_time : Int
  end_time : Int
  deriving DecidableEq

/-- The struct `SubtitleRenderInfo`; `lines = none` is a `NULL` array pointer,
`lines = some l` a live array with the records `l`. -/
structure SubtitleRenderInfo where
  lines : Option (List SubtitleLineInfo)
  count : Nat
  deriving DecidableEq

/-! ## The bounding-box reduction (`ass_measure.c` lines 103-131) -/

/-- The four running bounds of the reduction. -/
structure Bounds where
  x_min : Int
  y_min : Int
  x_max : Int
  y_max : Int
  deriving DecidableEq

/-- Lines 104-105: `x_min = y_min = INT_MAX`, `x_max = y_max = INT_MIN`. -/
def initBounds : Bounds :=
  { x_min := INT_MAX, y_min := INT_MAX, x_max := INT_MIN, y_max := INT_MIN }

/-- The test of line 109, `!cur_img->w || !cur_img->h`. -/
def skipped (cur_img : ASS_Image) : Bool :=
  cur_img.w == 0 || cur_img.h == 0

/-- One iteration of the loop over the chain, lines 109-120. -/
def updateBounds (b : Bounds) (cur_img : ASS_Image) : Bounds :=
  if skipped cur_img then b
  else
    let x0 := cur_img.dst_x
    let y0 := cur_img.dst_y
    let x1 := wrap32 (x0 + cur_img.w)
    let y1 := wrap32 (y0 + cur_img.h)
    { x_min := if x0 < b.x_min then x0 else b.x_min
      y_min := if y0 < b.y_min then y0 else b.y_min
      x_max := if x1 > b.x_max then x1 else b.x_max
      y_max := if y1 > b.y_max then y1 else b.y_max }

/-- The loop of lines 108-121 over the whole chain. -/
def scanImages (img : List ASS_Image) : Bounds :=
  img.foldl updateBounds initBounds

/-- Lines 124-131: the width and height stored for the event. -/
def boxOfBounds (b : Bounds) : SubtitleDimensions :=
  if b.x_max > b.x_min ∧ b.y_max > b.y_min then
    { width := wrap32 (b.x_max - b.x_min), height := wrap32 (b.y_max - b.y_min) }
  else
    { width := 0, height := 0 }

/-- Lines 103-131: the dimensions recorded for an event whose rendered chain
is `img`. -/
def measureBox (img : List ASS_Image) : SubtitleDimensions :=
  boxOfBounds (scanImages img)

/-! ## The environment of one call and the trace of what the call does -/

/-- The three engine handles the call acquires. -/
inductive Handle where
  | library
  | renderer
  | track
  deriving DecidableEq

/-- An acquisition or release performed by the call. `acquire` is logged only
when the engine returned a non-`NULL` handle; `calloc` and `strdup i` only
when they returned a non-`NULL` pointer. -/
inductive Op where
  | acquire (h : Handle)
  | release (h : Handle)
  | calloc
  | strdup (i : Nat)
  | freeText (j : Nat)
  | freeLines
  deriving DecidableEq

/-- Everything outside the repository that a call depends on.
* `libraryInit`: `ass_library_init` returned a non-`NULL` library;
* `rendererInit`: `ass_renderer_init` returned a non-`NULL` renderer;
* `readFile`: the events of the track `ass_read_file` returned, `none` for `NULL`;
* `callocOk`: `calloc` returned a non-`NULL` pointer (for a zero-size request
  the C standard allows either answer);
* `strdupOk i`: the `strdup` of iteration `i` returned a non-`NULL` pointer;
* `renderFrame i now`: the chain `ass_render_frame` returns in iteration `i`
  for the timestamp `now`. -/
structure Env where
  libraryInit : Bool
  rendererInit : Bool
  readFile : Option (List ASS_Event)
  callocOk : Bool
  strdupOk : Nat → Bool
  renderFrame : Nat → Int → List ASS_Image

/-- The initial value `{NULL, 0}` of `result`, returned on every failure. -/
def emptyResult : SubtitleRenderInfo := { lines := none, count := 0 }

/-- An element of the array as `calloc` leaves it: all fields zero. -/
def zeroLine : SubtitleLineInfo :=
  { text := none, dimensions := { width := 0, height := 0 }, start_time := 0, end_time := 0 }

/-- The record iteration `i` leaves in `result.lines[i]` when its `strdup`
succeeded (lines 78-82 and 99-131). -/
def lineOfEvent (env : Env) (i : Nat) (event : ASS_Event) : SubtitleLineInfo :=
  { start_time := event.Start
    end_time := wrap64 (event.Start + event.Duration)
    text := some event.Text
    dimensions := measureBox (env.renderFrame i event.Start) }

/-- The loop of lines 74-132 from iteration `i` on, followed by the tail of
the function (lines 134-139). The first argument is the events still to be
processed, `track->events[i..]`; `lines` is the array, `count` is
`result.count`, `tr` the trace so far. -/
def eventLoop (env : Env) :
    List ASS_Event → Nat → Nat → List SubtitleLineInfo → List Op → SubtitleRenderInfo × List Op
  | [], _, count, lines, tr =>
    ({ lines := some lines, count := count },
      tr ++ [Op.release Handle.track, Op.release Handle.renderer, Op.release Handle.library])
  | event :: rest, i, count, lines, tr =>
    if env.strdupOk i then
      eventLoop env rest (i + 1) count (lines.set i (lineOfEvent env i event)) (tr ++ [Op.strdup i])
    else
      ({ lines := none, count := 0 },
        tr ++ (List.range i).map Op.freeText ++
          [Op.freeLines, Op.release Handle.track, Op.release Handle.renderer,
            Op.release Handle.library])

/-- The function `measure_subtitle_dimensions` of `ass_measure.c`: the value it
returns and the trace of its acquisitions and releases. The path and the
frame size reach only the engine, which is `env`. -/
def measure_subtitle_dimensions (env : Env) : SubtitleRenderInfo × List Op :=
  if !env.libraryInit then (emptyResult, [])
  else if !env.rendererInit then
    (emptyResult, [Op.acquire Handle.library, Op.release Handle.library])
  else
    match env.readFile with
    | none =>
      (emptyResult,
        [Op.acquire Handle.library, Op.acquire Handle.renderer,
          Op.release Handle.renderer, Op.release Handle.library])
    | some events =>
      if !env.callocOk then
        ({ lines := none, count := 0 },
          [Op.acquire Handle.library, Op.acquire Handle.renderer, Op.acquire Handle.track,
            Op.release Handle.track, Op.release Handle.renderer, Op.release Handle.library])
      else
        eventLoop env events 0 events.length (List.replicate events.length zeroLine)
          [Op.acquire Handle.library, Op.acquire Handle.renderer, Op.acquire Handle.track,
            Op.calloc]

/-! ## The host-runtime bindings -/

/-- An argument a script passes to the binding. A number carries the value
`Int32Value()` gives for it. -/
inductive JsArg where
  | str (s : String)
  | num (int32Value : Int)
  | other
  deriving DecidableEq

/-- The object the bindings build for one line. -/
structure JsLine where
  text : String
  width : Int
  height : Int
  startTime : Int
  endTime : Int
  deriving DecidableEq

/-- What the script sees of a call: a pending exception, or the returned array. -/
inductive HostOutcome where
  | typeError (message : String)
  | error (message : String)
  | array (items : List JsLine)
  | invalidRead
  deriving DecidableEq

/-- The object built from one `SubtitleLineInfo` (a `NULL` text becomes `""`). -/
def jsLineOf (line : SubtitleLineInfo) : JsLine :=
  { text := line.text.getD ""
    width := line.dimensions.width
    height := line.dimensions.height
    startTime := line.start_time
    endTime := line.end_time }

/-- The conversion loop `for (size_t i = 0; i < count; i++)` of both bindings:
the objects for `lines[0..count)`, or `none` when an index is outside the array. -/
def convertLines (lines : Option (List SubtitleLineInfo)) (count : Nat) :
    Option (List JsLine) :=
  (List.range count).mapM (fun i => ((lines.getD [])[i]?).map jsLineOf)

/-- The function `MeasureDimensions` of `ass-addon/addon.cpp`, exported as
`measureLines`; `core` stands for `measure_subtitle_dimensions`. -/
def MeasureDimensions (core : String → Int → Int → SubtitleRenderInfo)
    (info : List JsArg) : HostOutcome :=
  if info.length < 3 then HostOutcome.typeError "Wrong number of arguments"
  else
    match info with
    | JsArg.str filePath :: JsArg.num videoWidth :: JsArg.num videoHeight :: _ =>
      let result := core filePath videoWidth videoHeight
      if result.count = 0 ∨ result.lines = none then
        HostOutcome.error "Failed to measure subtitle dimensions"
      else
        match convertLines result.lines result.count with
        | some items => HostOutcome.array items
        | none => HostOutcome.invalidRead
    | _ => HostOutcome.typeError "Wrong arguments"

/-- The function `MeasureSubtitleLines` of `src/ass_measure_binding.cpp`,
exported as `measureLines`; `core` stands for `measure_subtitle_dimensions`. -/
def MeasureSubtitleLines (core : String → Int → Int → SubtitleRenderInfo)
    (info : List JsArg) : HostOutcome :=
  match info with
  | JsArg.str assFilePath :: JsArg.num videoWidth :: JsArg.num videoHeight :: _ =>
    let renderInfo := core assFilePath videoWidth videoHeight
    match convertLines renderInfo.lines renderInfo.count with
    | some items => HostOutcome.array items
    | none => HostOutcome.invalidRead
  | _ => HostOutcome.typeError "Expected (assFilePath, videoWidth, videoHeight)"

/-- The test both callers in the repository apply to a result
(`addon.cpp` line 41, `measure_example.c` line 34). -/
def callerSeesFailure (result : SubtitleRenderInfo) : Bool :=
  result.count == 0 || result.lines.isNone

/-- The four fields of a tile are 32-bit `int` values, as the type
`ASS_Image` makes them. -/
def tileInt32 (t : ASS_Image) : Prop :=
  (INT_MIN ≤ t.w ∧ t.w ≤ INT_MAX) ∧ (INT_MIN ≤ t.h ∧ t.h ≤ INT_MAX) ∧
  (INT_MIN ≤ t.dst_x ∧ t.dst_x ≤ INT_MAX) ∧ (INT_MIN ≤ t.dst_y ∧ t.dst_y ≤ INT_MAX)

instance decidableTileInt32 (t : ASS_Image) : Decidable (tileInt32 t) := by
  unfold tileInt32; infer_instance

/-- A chain of two 1-by-1 tiles at the two ends of the `int` range. -/
def spanChain : List ASS_Image :=
  [{ w := 1, h := 1, dst_x := -2147483648, dst_y := 0 },
   { w := 1, h := 1, dst_x := 2147483646, dst_y := 0 }]


/-- A chain of two 1-by-1 tiles at the top and the bottom of the `int` range. -/
def tallChain : List ASS_Image :=
  [{ w := 1, h := 1, dst_x := 0, dst_y := -2147483648 },
   { w := 1, h := 1, dst_x := 0, dst_y := 2147483646 }]

/-- A call in which everything succeeds, the track has one event and the
engine renders it as `tallChain`. -/
def tallEnv : Env :=
  { libraryInit := true
    rendererInit := true
    readFile := some [{ Start := 0, Duration := 1000, Text := "a" }]
    callocOk := true
    strdupOk := fun _ => true
    renderFrame := fun _ _ => tallChain }


/-- The records the loop leaves for the events `events`, the first of which
has index `i`, when every text copy succeeds. -/
def linesFrom (env : Env) : Nat → List ASS_Event → List SubtitleLineInfo
  | _, [] => []
  | i, event :: rest => lineOfEvent env i event :: linesFrom env (i + 1) rest

/-- The acquisitions and releases of engine handles in a trace, in order. -/
def handleOps (tr : List Op) : List Op :=
  tr.filter (fun op =>
    match op with
    | Op.acquire _ => true
    | Op.release _ => true
    | _ => false)

/-- The handles the engine hands out in a call, in acquisition order: the
library, then the renderer, then the track, up to the first that fails. -/
def acquiredBy (env : Env) : List Handle :=
  if !env.libraryInit then []
  else if !env.rendererInit then [Handle.library]
  else
    match env.readFile with
    | none => [Handle.library, Handle.renderer]
    | some _ => [Handle.library, Handle.renderer, Handle.track]

/-- Replays a trace against the stack of live handles: an acquisition pushes
its handle (which must not be live), a release must release the handle
acquired last. The result is the stack left at the end, `none` when a step
breaks the discipline. -/
def replayHandles : List Handle → List Op → Option (List Handle)
  | live, [] => some live
  | live, Op.acquire h :: tr => if h ∈ live then none else replayHandles (h :: live) tr
  | [], Op.release _ :: _ => none
  | top :: live, Op.release h :: tr => if h = top then replayHandles live tr else none
  | live, _ :: tr => replayHandles live tr

/-- A call in which the script cannot be loaded (`ass_read_file` returns
`NULL`), as for a path that does not exist. -/
def missingFileEnv : Env :=
  { libraryInit := true
    rendererInit := true
    readFile := none
    callocOk := true
    strdupOk := fun _ => true
    renderFrame := fun _ _ => [] }

/-- A call on a script without events in which `calloc (0, ...)` returns a
non-`NULL` pointer. -/
def noEventsEnv : Env :=
  { libraryInit := true
    rendererInit := true
    readFile := some []
    callocOk := true
    strdupOk := fun _ => true
    renderFrame := fun _ _ => [] }

/-- A call on a script of three events in which everything succeeds; the
second event renders no visible tile, the others the two tiles of the
specification. -/
def threeEventsEnv : Env :=
  { libraryInit := true
    rendererInit := true
    readFile := some [{ Start := 0, Duration := 1500, Text := "one" },
                      { Start := 2000, Duration := 500, Text := "" },
                      { Start := 3000, Duration := 1000, Text := "three" }]
    callocOk := true
    strdupOk := fun _ => true
    renderFrame := fun i _ =>
      if i = 1 then [{ w := 0, h := 7, dst_x := 3, dst_y := 4 }]
      else [{ w := 10, h := 5, dst_x := 0, dst_y := 0 }, { w := 4, h := 4, dst_x := 20, dst_y := 3 }] }

/-- The call of `threeEventsEnv` in which the text copy of the third event
fails. -/
def thirdCopyFailsEnv : Env :=
  { threeEventsEnv with strdupOk := fun i => decide (i < 2) }


/-! ## Lemmas on the reduction -/

theorem skipped_eq_true (t : ASS_Image) : skipped t = true ↔ t.w = 0 ∨ t.h = 0 := by
  simp [skipped]

theorem skipped_eq_false (t : ASS_Image) : skipped t = false ↔ t.w ≠ 0 ∧ t.h ≠ 0 := by
  simp [skipped]

theorem wrap32_of_range (v : Int) (h0 : INT_MIN ≤ v) (h1 : v ≤ INT_MAX) : wrap32 v = v := by
  unfold INT_MIN at h0
  unfold INT_MAX at h1
  unfold wrap32
  omega

theorem wrap32_range (v : Int) : INT_MIN ≤ wrap32 v ∧ wrap32 v ≤ INT_MAX := by
  unfold INT_MIN INT_MAX wrap32
  omega

theorem wrap64_of_range (v : Int) (h0 : -9223372036854775808 ≤ v)
    (h1 : v ≤ 9223372036854775807) : wrap64 v = v := by
  unfold wrap64
  omega

/-- The running `x_min` is the least of its start value and the `dst_x` of the
tiles that are not skipped. -/
theorem foldl_x_min (l : List ASS_Image) : ∀ b : Bounds,
    (l.foldl updateBounds b).x_min ≤ b.x_min ∧
    (∀ t ∈ l, skipped t = false → (l.foldl updateBounds b).x_min ≤ t.dst_x) ∧
    ((l.foldl updateBounds b).x_min = b.x_min ∨
      ∃ t ∈ l, skipped t = false ∧ (l.foldl updateBounds b).x_min = t.dst_x) := by
  induction l with
  | nil => intro b; simp
  | cons a l ih =>
    intro b
    obtain ⟨h1, h2, h3⟩ := ih (updateBounds b a)
    simp only [List.foldl_cons, List.mem_cons, forall_eq_or_imp, exists_eq_or_imp]
    by_cases hs : skipped a = true
    · have hu : updateBounds b a = b := by simp [updateBounds, hs]
      rw [hu] at h1 h2 h3 ⊢
      refine ⟨h1, ⟨fun h => ?_, h2⟩, ?_⟩
      · simp [hs] at h
      · rcases h3 with h3 | h3
        · exact Or.inl h3
        · exact Or.inr (Or.inr h3)
    · have hs' : skipped a = false := by simpa using hs
      have hx : (updateBounds b a).x_min = if a.dst_x < b.x_min then a.dst_x else b.x_min := by
        simp [updateBounds, hs']
      have hle : (updateBounds b a).x_min ≤ b.x_min ∧ (updateBounds b a).x_min ≤ a.dst_x ∧
          ((updateBounds b a).x_min = b.x_min ∨ (updateBounds b a).x_min = a.dst_x) := by
        rw [hx]; split_ifs <;> omega
      refine ⟨le_trans h1 hle.1, ⟨fun _ => le_trans h1 hle.2.1, h2⟩, ?_⟩
      rcases h3 with h3 | h3
      · rcases hle.2.2 with h4 | h4
        · exact Or.inl (h3.trans h4)
        · exact Or.inr (Or.inl ⟨hs', h3.trans h4⟩)
      · exact Or.inr (Or.inr h3)

/-- The running `y_min` is the least of its start value and the `dst_y` of the
tiles that are not skipped. -/
theorem foldl_y_min (l : List ASS_Image) : ∀ b : Bounds,
    (l.foldl updateBounds b).y_min ≤ b.y_min ∧
    (∀ t ∈ l, skipped t = false → (l.foldl updateBounds b).y_min ≤ t.dst_y) ∧
    ((l.foldl updateBounds b).y_min = b.y_min ∨
      ∃ t ∈ l, skipped t = false ∧ (l.foldl updateBounds b).y_min = t.dst_y) := by
  induction l with
  | nil => intro b; simp
  | cons a l ih =>
    intro b
    obtain ⟨h1, h2, h3⟩ := ih (updateBounds b a)
    simp only [List.foldl_cons, List.mem_cons, forall_eq_or_imp, exists_eq_or_imp]
    by_cases hs : skipped a = true
    · have hu : updateBounds b a = b := by simp [updateBounds, hs]
      rw [hu] at h1 h2 h3 ⊢
      refine ⟨h1, ⟨fun h => ?_, h2⟩, ?_⟩
      · simp [hs] at h
      · rcases h3 with h3 | h3
        · exact Or.inl h3
        · exact Or.inr (Or.inr h3)
    · have hs' : skipped a = false := by simpa using hs
      have hx : (updateBounds b a).y_min = if a.dst_y < b.y_min then a.dst_y else b.y_min := by
        simp [updateBounds, hs']
      have hle : (updateBounds b a).y_min ≤ b.y_min ∧ (updateBounds b a).y_min ≤ a.dst_y ∧
          ((updateBounds b a).y_min = b.y_min ∨ (updateBounds b a).y_min = a.dst_y) := by
        rw [hx]; split_ifs <;> omega
      refine ⟨le_trans h1 hle.1, ⟨fun _ => le_trans h1 hle.2.1, h2⟩, ?_⟩
      rcases h3 with h3 | h3
      · rcases hle.2.2 with h4 | h4
        · exact Or.inl (h3.trans h4)
        · exact Or.inr (Or.inl ⟨hs', h3.trans h4⟩)
      · exact Or.inr (Or.inr h3)

/-- The running `x_max` is the greatest of its start value and the right
edges `x1` of the tiles that are not skipped. -/
theorem foldl_x_max (l : List ASS_Image) : ∀ b : Bounds,
    b.x_max ≤ (l.foldl updateBounds b).x_max ∧
    (∀ t ∈ l, skipped t = false → wrap32 (t.dst_x + t.w) ≤ (l.foldl updateBounds b).x_max) ∧
    ((l.foldl updateBounds b).x_max = b.x_max ∨
      ∃ t ∈ l, skipped t = false ∧ (l.foldl updateBounds b).x_max = wrap32 (t.dst_x + t.w)) := by
  induction l with
  | nil => intro b; simp
  | cons a l ih =>
    intro b
    obtain ⟨h1, h2, h3⟩ := ih (updateBounds b a)
    simp only [List.foldl_cons, List.mem_cons, forall_eq_or_imp, exists_eq_or_imp]
    by_cases hs : skipped a = true
    · have hu : updateBounds b a = b := by simp [updateBounds, hs]
      rw [hu] at h1 h2 h3 ⊢
      refine ⟨h1, ⟨fun h => ?_, h2⟩, ?_⟩
      · simp [hs] at h
      · rcases h3 with h3 | h3
        · exact Or.inl h3
        · exact Or.inr (Or.inr h3)
    · have hs' : skipped a = false := by simpa using hs
      have hx : (updateBounds b a).x_max =
          if wrap32 (a.dst_x + a.w) > b.x_max then wrap32 (a.dst_x + a.w) else b.x_max := by
        simp [updateBounds, hs']
      have hle : b.x_max ≤ (updateBounds b a).x_max ∧
          wrap32 (a.dst_x + a.w) ≤ (updateBounds b a).x_max ∧
          ((updateBounds b a).x_max = b.x_max ∨
            (updateBounds b a).x_max = wrap32 (a.dst_x + a.w)) := by
        rw [hx]; split_ifs <;> omega
      refine ⟨le_trans hle.1 h1, ⟨fun _ => le_trans hle.2.1 h1, h2⟩, ?_⟩
      rcases h3 with h3 | h3
      · rcases hle.2.2 with h4 | h4
        · exact Or.inl (h3.trans h4)
        · exact Or.inr (Or.inl ⟨hs', h3.trans h4⟩)
      · exact Or.inr (Or.inr h3)

/-- The running `y_max` is the greatest of its start value and the bottom
edges `y1` of the tiles that are not skipped. -/
theorem foldl_y_max (l : List ASS_Image) : ∀ b : Bounds,
    b.y_max ≤ (l.foldl updateBounds b).y_max ∧
    (∀ t ∈ l, skipped t = false → wrap32 (t.dst_y + t.h) ≤ (l.foldl updateBounds b).y_max) ∧
    ((l.foldl updateBounds b).y_max = b.y_max ∨
      ∃ t ∈ l, skipped t = false ∧ (l.foldl updateBounds b).y_max = wrap32 (t.dst_y + t.h)) := by
  induction l with
  | nil => intro b; simp
  | cons a l ih =>
    intro b
    obtain ⟨h1, h2, h3⟩ := ih (updateBounds b a)
    simp only [List.foldl_cons, List.mem_cons, forall_eq_or_imp, exists_eq_or_imp]
    by_cases hs : skipped a = true
    · have hu : updateBounds b a = b := by simp [updateBounds, hs]
      rw [hu] at h1 h2 h3 ⊢
      refine ⟨h1, ⟨fun h => ?_, h2⟩, ?_⟩
      · simp [hs] at h
      · rcases h3 with h3 | h3
        · exact Or.inl h3
        · exact Or.inr (Or.inr h3)
    · have hs' : skipped a = false := by simpa using hs
      have hx : (updateBounds b a).y_max =
          if wrap32 (a.dst_y + a.h) > b.y_max then wrap32 (a.dst_y + a.h) else b.y_max := by
        simp [updateBounds, hs']
      have hle : b.y_max ≤ (updateBounds b a).y_max ∧
          wrap32 (a.dst_y + a.h) ≤ (updateBounds b a).y_max ∧
          ((updateBounds b a).y_max = b.y_max ∨
            (updateBounds b a).y_max = wrap32 (a.dst_y + a.h)) := by
        rw [hx]; split_ifs <;> omega
      refine ⟨le_trans hle.1 h1, ⟨fun _ => le_trans hle.2.1 h1, h2⟩, ?_⟩
      rcases h3 with h3 | h3
      · rcases hle.2.2 with h4 | h4
        · exact Or.inl (h3.trans h4)
        · exact Or.inr (Or.inl ⟨hs', h3.trans h4⟩)
      · exact Or.inr (Or.inr h3)

/-- A skipped tile leaves the bounds as they are. -/
theorem updateBounds_skipped (b : Bounds) (t : ASS_Image) (h : skipped t = true) :
    updateBounds b t = b := by
  simp [updateBounds, h]

/-- The order of two iterations does not matter. -/
theorem updateBounds_comm (b : Bounds) (s t : ASS_Image) :
    updateBounds (updateBounds b s) t = updateBounds (updateBounds b t) s := by
  by_cases hs : skipped s = true
  · simp [updateBounds, hs]
  · by_cases ht : skipped t = true
    · simp [updateBounds, ht]
    · simp only [updateBounds, hs, ht, Bool.false_eq_true, if_false]
      refine congr (congr (congr (congrArg Bounds.mk ?_) ?_) ?_) ?_ <;>
        split_ifs <;> omega

/-- Skipped tiles can be dropped from the chain. -/
theorem foldl_filter (l : List ASS_Image) : ∀ b : Bounds,
    l.foldl updateBounds b = (l.filter (fun t => !skipped t)).foldl updateBounds b := by
  induction l with
  | nil => intro b; rfl
  | cons a l ih =>
    intro b
    by_cases hs : skipped a = true
    · simp [List.filter_cons, hs, updateBounds_skipped b a hs, ih b]
    · have hs' : skipped a = false := by simpa using hs
      simp [List.filter_cons, hs', ih (updateBounds b a)]

/-- With at least one tile that is not skipped, and no overflow in the right
and bottom edges, each of the four bounds is attained by a tile that is not
skipped. -/
theorem scan_attained (img : List ASS_Image)
    (hpos : ∀ t ∈ img, 0 ≤ t.w ∧ 0 ≤ t.h)
    (hrange : ∀ t ∈ img, INT_MIN ≤ t.dst_x ∧ t.dst_x + t.w ≤ INT_MAX ∧
      INT_MIN ≤ t.dst_y ∧ t.dst_y + t.h ≤ INT_MAX)
    (hex : ∃ t ∈ img, t.w ≠ 0 ∧ t.h ≠ 0) :
    (∃ a ∈ img, skipped a = false ∧ (scanImages img).x_min = a.dst_x) ∧
    (∃ a ∈ img, skipped a = false ∧ (scanImages img).y_min = a.dst_y) ∧
    (∃ a ∈ img, skipped a = false ∧ (scanImages img).x_max = a.dst_x + a.w) ∧
    (∃ a ∈ img, skipped a = false ∧ (scanImages img).y_max = a.dst_y + a.h) := by
  obtain ⟨t0, ht0, hnd⟩ := hex
  have hs0 : skipped t0 = false := (skipped_eq_false t0).2 hnd
  have hp0 := hpos t0 ht0
  have hr0 := hrange t0 ht0
  have hw : ∀ t ∈ img, wrap32 (t.dst_x + t.w) = t.dst_x + t.w := fun t ht =>
    wrap32_of_range _ (by have := hpos t ht; have := hrange t ht; omega) (hrange t ht).2.1
  have hh : ∀ t ∈ img, wrap32 (t.dst_y + t.h) = t.dst_y + t.h := fun t ht =>
    wrap32_of_range _ (by have := hpos t ht; have := hrange t ht; omega) (hrange t ht).2.2.2
  have hM : INT_MAX = 2147483647 := rfl
  have hm : INT_MIN = -2147483648 := rfl
  unfold scanImages
  refine ⟨?_, ?_, ?_, ?_⟩
  · obtain ⟨_, a2, a3⟩ := foldl_x_min img initBounds
    have a2' := a2 t0 ht0 hs0
    rcases a3 with h | h
    · have h' : (List.foldl updateBounds initBounds img).x_min = INT_MAX := h
      clear h a2
      exact ⟨t0, ht0, hs0, by omega⟩
    · exact h
  · obtain ⟨_, a2, a3⟩ := foldl_y_min img initBounds
    have a2' := a2 t0 ht0 hs0
    rcases a3 with h | h
    · have h' : (List.foldl updateBounds initBounds img).y_min = INT_MAX := h
      clear h a2
      exact ⟨t0, ht0, hs0, by omega⟩
    · exact h
  · obtain ⟨_, a2, a3⟩ := foldl_x_max img initBounds
    have a2' := a2 t0 ht0 hs0
    rw [hw t0 ht0] at a2'
    rcases a3 with h | h
    · have h' : (List.foldl updateBounds initBounds img).x_max = INT_MIN := h
      clear h a2
      exfalso; omega
    · obtain ⟨a, ha, hsa, he⟩ := h
      exact ⟨a, ha, hsa, by rw [he, hw a ha]⟩
  · obtain ⟨_, a2, a3⟩ := foldl_y_max img initBounds
    have a2' := a2 t0 ht0 hs0
    rw [hh t0 ht0] at a2'
    rcases a3 with h | h
    · have h' : (List.foldl updateBounds initBounds img).y_max = INT_MIN := h
      clear h a2
      exfalso; omega
    · obtain ⟨a, ha, hsa, he⟩ := h
      exact ⟨a, ha, hsa, by rw [he, hh a ha]⟩

/-! ## Lemmas on the whole function -/

theorem set_length_append {α : Type} (done : List α) (z r : α) (tl : List α) :
    (done ++ z :: tl).set done.length r = done ++ r :: tl := by
  induction done with
  | nil => rfl
  | cons a done ih => simp [ih]

theorem linesFrom_length (env : Env) (events : List ASS_Event) :
    ∀ i, (linesFrom env i events).length = events.length := by
  induction events with
  | nil => intro i; rfl
  | cons e rest ih => intro i; simp [linesFrom, ih]

theorem linesFrom_getElem? (env : Env) (events : List ASS_Event) :
    ∀ i k, (linesFrom env i events)[k]? = (events[k]?).map (lineOfEvent env (i + k)) := by
  induction events with
  | nil => intro i k; simp [linesFrom]
  | cons e rest ih =>
    intro i k
    cases k with
    | zero => simp [linesFrom]
    | succ k =>
      simp only [linesFrom, List.getElem?_cons_succ, ih]
      rw [show i + 1 + k = i + (k + 1) by omega]

theorem linesFrom_text (env : Env) (events : List ASS_Event) :
    ∀ i, ∀ l ∈ linesFrom env i events, l.text ≠ none := by
  induction events with
  | nil => intro i l hl; simp [linesFrom] at hl
  | cons e rest ih =>
    intro i l hl
    simp only [linesFrom, List.mem_cons] at hl
    rcases hl with h | h
    · rw [h]; simp [lineOfEvent]
    · exact ih _ l h

/-- When every remaining text copy succeeds the loop fills the rest of the
array and the function returns it. -/
theorem eventLoop_success (env : Env) (count : Nat) (rest : List ASS_Event) :
    ∀ (done : List SubtitleLineInfo) (tr : List Op),
    (∀ k, k < rest.length → env.strdupOk (done.length + k) = true) →
    eventLoop env rest done.length count (done ++ List.replicate rest.length zeroLine) tr =
      ({ lines := some (done ++ linesFrom env done.length rest), count := count },
        tr ++ (List.range' done.length rest.length).map Op.strdup ++
          [Op.release Handle.track, Op.release Handle.renderer, Op.release Handle.library]) := by
  induction rest with
  | nil => intro done tr _; simp [eventLoop, linesFrom]
  | cons e rest ih =>
    intro done tr hok
    have h0 : env.strdupOk done.length = true := by simpa using hok 0 (by simp)
    have hstep := ih (done ++ [lineOfEvent env done.length e]) (tr ++ [Op.strdup done.length])
      (fun k hk => by
        have := hok (k + 1) (by simpa using hk)
        simpa [Nat.add_assoc, Nat.add_comm 1 k] using this)
    simp only [List.length_append, List.length_singleton, List.append_assoc,
      List.singleton_append] at hstep
    simp only [eventLoop, h0, if_true, List.replicate_succ, List.length_cons,
      set_length_append, linesFrom, List.range'_succ, List.map_cons]
    rw [hstep]
    simp

/-- When the first text copy to fail is that of the event after `pre`, the
loop frees the texts copied so far and the array, and the function returns
the empty result. -/
theorem eventLoop_failure (env : Env) (count : Nat) (pre : List ASS_Event) :
    ∀ (e : ASS_Event) (post : List ASS_Event) (done : List SubtitleLineInfo) (tr : List Op),
    (∀ k, k < pre.length → env.strdupOk (done.length + k) = true) →
    env.strdupOk (done.length + pre.length) = false →
    eventLoop env (pre ++ e :: post) done.length count
        (done ++ List.replicate (pre ++ e :: post).length zeroLine) tr =
      (emptyResult,
        tr ++ (List.range' done.length pre.length).map Op.strdup ++
          (List.range (done.length + pre.length)).map Op.freeText ++
          [Op.freeLines, Op.release Handle.track, Op.release Handle.renderer,
            Op.release Handle.library]) := by
  induction pre with
  | nil =>
    intro e post done tr _ hf
    have hf' : env.strdupOk done.length = false := by simpa using hf
    simp [eventLoop, hf', emptyResult]
  | cons p pre ih =>
    intro e post done tr hok hf
    have h0 : env.strdupOk done.length = true := by simpa using hok 0 (by simp)
    have hl : (done ++ [lineOfEvent env done.length p]).length = done.length + 1 := by simp
    have hstep := ih e post (done ++ [lineOfEvent env done.length p])
      (tr ++ [Op.strdup done.length])
      (fun k hk => by
        rw [hl]
        have := hok (k + 1) (by simpa using hk)
        simpa [Nat.add_assoc, Nat.add_comm 1 k] using this)
      (by rw [hl]; simpa [Nat.add_assoc, Nat.add_comm 1 pre.length] using hf)
    rw [hl, List.append_assoc, List.singleton_append] at hstep
    rw [List.cons_append, List.length_cons, List.replicate_succ]
    simp only [eventLoop, h0, if_true, set_length_append]
    rw [hstep]
    simp [List.range'_succ, Nat.add_assoc, Nat.add_comm 1 pre.length]

/-- Whatever the text copies do, the loop ends in the empty result or in the
complete array. -/
theorem eventLoop_result (env : Env) (count : Nat) (rest : List ASS_Event) :
    ∀ (done : List SubtitleLineInfo) (tr : List Op),
    (eventLoop env rest done.length count (done ++ List.replicate rest.length zeroLine) tr).1 =
        emptyResult ∨
    (eventLoop env rest done.length count (done ++ List.replicate rest.length zeroLine) tr).1 =
        { lines := some (done ++ linesFrom env done.length rest), count := count } := by
  induction rest with
  | nil => intro done tr; right; simp [eventLoop, linesFrom]
  | cons e rest ih =>
    intro done tr
    by_cases h0 : env.strdupOk done.length = true
    · have hstep := ih (done ++ [lineOfEvent env done.length e]) (tr ++ [Op.strdup done.length])
      simp only [List.length_append, List.length_singleton, List.append_assoc,
        List.singleton_append] at hstep
      simp only [eventLoop, h0, if_true, List.replicate_succ, List.length_cons,
        set_length_append, linesFrom]
      exact hstep
    · left
      simp [eventLoop, h0, emptyResult]

/-- The loop and the tail of the function release the three handles, track
first, and touch no handle otherwise. -/
theorem eventLoop_handleOps (env : Env) (count : Nat) (rest : List ASS_Event) :
    ∀ (i : Nat) (lines : List SubtitleLineInfo) (tr : List Op),
    handleOps (eventLoop env rest i count lines tr).2 =
      handleOps tr ++
        [Op.release Handle.track, Op.release Handle.renderer, Op.release Handle.library] := by
  induction rest with
  | nil => intro i lines tr; simp [eventLoop, handleOps, List.filter_append]
  | cons e rest ih =>
    intro i lines tr
    by_cases h0 : env.strdupOk i = true
    · simp only [eventLoop, h0, if_true]
      rw [ih]
      simp [handleOps, List.filter_append]
    · simp only [eventLoop, h0, if_false, Bool.false_eq_true]
      simp [handleOps, List.filter_append, List.filter_map]

/-- The successful path of the function: result and trace. -/
theorem measure_success (env : Env) (events : List ASS_Event)
    (hl : env.libraryInit = true) (hr : env.rendererInit = true)
    (hf : env.readFile = some events) (hc : env.callocOk = true)
    (hs : ∀ i, i < events.length → env.strdupOk i = true) :
    measure_subtitle_dimensions env =
      ({ lines := some (linesFrom env 0 events), count := events.length },
        [Op.acquire Handle.library, Op.acquire Handle.renderer, Op.acquire Handle.track,
            Op.calloc] ++ (List.range events.length).map Op.strdup ++
          [Op.release Handle.track, Op.release Handle.renderer, Op.release Handle.library]) := by
  have h := eventLoop_success env events.length events []
    [Op.acquire Handle.library, Op.acquire Handle.renderer, Op.acquire Handle.track, Op.calloc]
    (by simpa using hs)
  simp only [List.length_nil, List.nil_append] at h
  simp only [measure_subtitle_dimensions, hl, hr, hf, hc, Bool.not_true, Bool.false_eq_true,
    if_false]
  rw [h, List.range_eq_range']

/-- Once the track is loaded the function returns the empty result or the
complete array, nothing in between. -/
theorem measure_result (env : Env) (events : List ASS_Event)
    (hl : env.libraryInit = true) (hr : env.rendererInit = true)
    (hf : env.readFile = some events) :
    (measure_subtitle_dimensions env).1 = emptyResult ∨
    (env.callocOk = true ∧ (measure_subtitle_dimensions env).1 =
      { lines := some (linesFrom env 0 events), count := events.length }) := by
  by_cases hc : env.callocOk = true
  · have h := eventLoop_result env events.length events []
      [Op.acquire Handle.library, Op.acquire Handle.renderer, Op.acquire Handle.track, Op.calloc]
    simp only [List.length_nil, List.nil_append] at h
    simp only [measure_subtitle_dimensions, hl, hr, hf, hc, Bool.not_true, Bool.false_eq_true,
      if_false]
    rcases h with h | h
    · exact Or.inl h
    · exact Or.inr ⟨trivial, h⟩
  · left
    simp [measure_subtitle_dimensions, hl, hr, hf, hc, emptyResult]

/-- A result with a live array comes from a loaded track and holds the
records of its events. -/
theorem measure_lines_some (env : Env) (lines : List SubtitleLineInfo)
    (h : (measure_subtitle_dimensions env).1.lines = some lines) :
    ∃ events, env.readFile = some events ∧ lines = linesFrom env 0 events ∧
      (measure_subtitle_dimensions env).1.count = events.length := by
  by_cases hl : env.libraryInit = true
  · by_cases hr : env.rendererInit = true
    · cases hf : env.readFile with
      | none =>
        simp [measure_subtitle_dimensions, hl, hr, hf, emptyResult] at h
      | some events =>
        rcases measure_result env events hl hr hf with h' | ⟨_, h'⟩
        · rw [h'] at h; simp [emptyResult] at h
        · rw [h'] at h ⊢
          simp only [Option.some.injEq] at h
          exact ⟨events, rfl, h.symm, rfl⟩
    · simp [measure_subtitle_dimensions, hl, hr, emptyResult] at h
  · simp [measure_subtitle_dimensions, hl, emptyResult] at h

/-- The path on which the text copy of event `i` is the first to fail:
result and trace. -/
theorem measure_copy_failure (env : Env) (events : List ASS_Event) (i : Nat)
    (hl : env.libraryInit = true) (hr : env.rendererInit = true)
    (hf : env.readFile = some events) (hc : env.callocOk = true)
    (hi : i < events.length)
    (hs : ∀ j, j < i → env.strdupOk j = true) (hfail : env.strdupOk i = false) :
    measure_subtitle_dimensions env =
      (emptyResult,
        [Op.acquire Handle.library, Op.acquire Handle.renderer, Op.acquire Handle.track,
            Op.calloc] ++ (List.range i).map Op.strdup ++ (List.range i).map Op.freeText ++
          [Op.freeLines, Op.release Handle.track, Op.release Handle.renderer,
            Op.release Handle.library]) := by
  have hsplit : events = events.take i ++ events[i] :: events.drop (i + 1) := by
    rw [← List.drop_eq_getElem_cons hi, List.take_append_drop]
  have hlen : (events.take i).length = i := by
    rw [List.length_take]; omega
  have h := eventLoop_failure env events.length (events.take i) events[i] (events.drop (i + 1)) []
    [Op.acquire Handle.library, Op.acquire Handle.renderer, Op.acquire Handle.track, Op.calloc]
    (by
      intro k hk
      rw [hlen] at hk
      simpa using hs k hk)
    (by rw [hlen]; simpa using hfail)
  rw [← hsplit, hlen] at h
  simp only [List.length_nil, List.nil_append, Nat.zero_add] at h
  simp only [measure_subtitle_dimensions, hl, hr, hf, hc, Bool.not_true, Bool.false_eq_true,
    if_false]
  rw [h, List.range_eq_range']

/-- Replaying a trace only looks at its handle operations. -/
theorem replayHandles_handleOps (tr : List Op) :
    ∀ live, replayHandles live tr = replayHandles live (handleOps tr) := by
  induction tr with
  | nil => intro live; rfl
  | cons op tr ih =>
    intro live
    cases op with
    | acquire h =>
      have : handleOps (Op.acquire h :: tr) = Op.acquire h :: handleOps tr := by
        simp [handleOps]
      rw [this]
      simp only [replayHandles]
      rw [ih]
    | release h =>
      have : handleOps (Op.release h :: tr) = Op.release h :: handleOps tr := by
        simp [handleOps]
      rw [this]
      cases live with
      | nil => simp [replayHandles]
      | cons top live =>
        simp only [replayHandles]
        rw [ih]
    | calloc =>
      have : handleOps (Op.calloc :: tr) = handleOps tr := by simp [handleOps]
      rw [this, ← ih]
      cases live <;> simp [replayHandles]
    | strdup i =>
      have : handleOps (Op.strdup i :: tr) = handleOps tr := by simp [handleOps]
      rw [this, ← ih]
      cases live <;> simp [replayHandles]
    | freeText j =>
      have : handleOps (Op.freeText j :: tr) = handleOps tr := by simp [handleOps]
      rw [this, ← ih]
      cases live <;> simp [replayHandles]
    | freeLines =>
      have : handleOps (Op.freeLines :: tr) = handleOps tr := by simp [handleOps]
      rw [this, ← ih]
      cases live <;> simp [replayHandles]

/-! ## The claims on the reduction -/

/-- C1 (as stated, refuted). Two tiles of width and height 1 at opposite ends
of the `int` range satisfy every condition of the claim (non-negative sizes,
32-bit fields, `x + w` and `y + h` in range, a tile that is not skipped), yet
the recorded width is `-1`: it is not `max (x + w) - min x` for any choice of
extremal tiles, and the second tile is not inside the recorded rectangle. -/
theorem box_tight_counterexample :
    (∀ t ∈ spanChain, 0 ≤ t.w ∧ 0 ≤ t.h ∧ tileInt32 t ∧
      INT_MIN ≤ t.dst_x + t.w ∧ t.dst_x + t.w ≤ INT_MAX ∧
      INT_MIN ≤ t.dst_y + t.h ∧ t.dst_y + t.h ≤ INT_MAX) ∧
    (∃ t ∈ spanChain, t.w ≠ 0 ∧ t.h ≠ 0) ∧
    (measureBox spanChain).width = -1 ∧
    (¬ ∃ l ∈ spanChain, ∃ r ∈ spanChain, (l.w ≠ 0 ∧ l.h ≠ 0) ∧ (r.w ≠ 0 ∧ r.h ≠ 0) ∧
      (∀ t ∈ spanChain, t.w ≠ 0 ∧ t.h ≠ 0 →
        l.dst_x ≤ t.dst_x ∧ t.dst_x + t.w ≤ r.dst_x + r.w) ∧
      (measureBox spanChain).width = r.dst_x + r.w - l.dst_x) ∧
    (¬ ∀ t ∈ spanChain, t.w ≠ 0 ∧ t.h ≠ 0 →
      t.dst_x + t.w ≤ (scanImages spanChain).x_min + (measureBox spanChain).width) := by
  decide

/-- C1 (amended). For a chain of tiles with non-negative sizes, `x + w` and
`y + h` within the `int` range, at least one tile with nonzero width and
height, and the horizontal and vertical spans of those tiles at most
`INT_MAX`: the recorded width is `max (x + w) - min x` and the recorded height
`max (y + h) - min y`, the extrema taken over the tiles with nonzero width and
height (tiles `l`, `u`, `r`, `d` attain them), and each such tile lies inside
the rectangle of that width and height placed at `(min x, min y)`. -/
theorem box_tight (img : List ASS_Image)
    (hpos : ∀ t ∈ img, 0 ≤ t.w ∧ 0 ≤ t.h)
    (hrange : ∀ t ∈ img, INT_MIN ≤ t.dst_x ∧ t.dst_x + t.w ≤ INT_MAX ∧
      INT_MIN ≤ t.dst_y ∧ t.dst_y + t.h ≤ INT_MAX)
    (hex : ∃ t ∈ img, t.w ≠ 0 ∧ t.h ≠ 0)
    (hspan : ∀ s ∈ img, ∀ t ∈ img, (s.w ≠ 0 ∧ s.h ≠ 0) → (t.w ≠ 0 ∧ t.h ≠ 0) →
      t.dst_x + t.w - s.dst_x ≤ INT_MAX ∧ t.dst_y + t.h - s.dst_y ≤ INT_MAX) :
    ∃ l ∈ img, ∃ u ∈ img, ∃ r ∈ img, ∃ d ∈ img,
      ((l.w ≠ 0 ∧ l.h ≠ 0) ∧ (u.w ≠ 0 ∧ u.h ≠ 0) ∧ (r.w ≠ 0 ∧ r.h ≠ 0) ∧ (d.w ≠ 0 ∧ d.h ≠ 0)) ∧
      (∀ t ∈ img, t.w ≠ 0 ∧ t.h ≠ 0 →
        l.dst_x ≤ t.dst_x ∧ u.dst_y ≤ t.dst_y ∧
        t.dst_x + t.w ≤ r.dst_x + r.w ∧ t.dst_y + t.h ≤ d.dst_y + d.h) ∧
      (measureBox img).width = r.dst_x + r.w - l.dst_x ∧
      (measureBox img).height = d.dst_y + d.h - u.dst_y ∧
      (∀ t ∈ img, t.w ≠ 0 ∧ t.h ≠ 0 →
        l.dst_x ≤ t.dst_x ∧ t.dst_x + t.w ≤ l.dst_x + (measureBox img).width ∧
        u.dst_y ≤ t.dst_y ∧ t.dst_y + t.h ≤ u.dst_y + (measureBox img).height) := by
  obtain ⟨⟨l, hl, hsl, el⟩, ⟨u, hu, hsu, eu⟩, ⟨r, hr, hsr, er⟩, ⟨d, hd, hsd, ed⟩⟩ :=
    scan_attained img hpos hrange hex
  have nl := (skipped_eq_false l).1 hsl
  have nu := (skipped_eq_false u).1 hsu
  have nr := (skipped_eq_false r).1 hsr
  have nd := (skipped_eq_false d).1 hsd
  have hM : INT_MAX = 2147483647 := rfl
  have hm : INT_MIN = -2147483648 := rfl
  -- every tile that is not skipped lies between the bounds
  have hin : ∀ t ∈ img, t.w ≠ 0 ∧ t.h ≠ 0 →
      l.dst_x ≤ t.dst_x ∧ u.dst_y ≤ t.dst_y ∧
      t.dst_x + t.w ≤ r.dst_x + r.w ∧ t.dst_y + t.h ≤ d.dst_y + d.h := by
    intro t ht hnt
    have hst := (skipped_eq_false t).2 hnt
    have hp := hpos t ht
    have hg := hrange t ht
    have h1 := (foldl_x_min img initBounds).2.1 t ht hst
    have h2 := (foldl_y_min img initBounds).2.1 t ht hst
    have h3 := (foldl_x_max img initBounds).2.1 t ht hst
    have h4 := (foldl_y_max img initBounds).2.1 t ht hst
    rw [wrap32_of_range _ (by omega) (by omega)] at h3 h4
    unfold scanImages at el eu er ed
    rw [el] at h1
    rw [eu] at h2
    rw [er] at h3
    rw [ed] at h4
    exact ⟨h1, h2, h3, h4⟩
  -- the test of line 124 succeeds and the two differences do not wrap
  have hlr := hin l hl nl
  have hud := hin u hu nu
  have pl := hpos l hl
  have pu := hpos u hu
  have sx := (hspan l hl r hr nl nr).1
  have sy := (hspan u hu d hd nu nd).2
  have hbox : measureBox img =
      { width := r.dst_x + r.w - l.dst_x, height := d.dst_y + d.h - u.dst_y } := by
    unfold measureBox boxOfBounds
    rw [el, eu, er, ed]
    have hc : r.dst_x + r.w > l.dst_x ∧ d.dst_y + d.h > u.dst_y := by
      constructor <;> omega
    rw [if_pos hc, wrap32_of_range _ (by omega) (by omega),
      wrap32_of_range _ (by omega) (by omega)]
  refine ⟨l, hl, u, hu, r, hr, d, hd, ⟨nl, nu, nr, nd⟩, hin, ?_, ?_, ?_⟩
  · rw [hbox]
  · rw [hbox]
  · intro t ht hnt
    have := hin t ht hnt
    rw [hbox]
    simp only
    omega

/-- C1 (witness): the two tiles of the specification, `(0,0,10,5)` and
`(20,3,4,4)`, meet the hypotheses; the box is 24 by 7. -/
theorem box_tight_witness :
    measureBox [⟨10, 5, 0, 0⟩, ⟨4, 4, 20, 3⟩] = ⟨24, 7⟩ ∧
    ∃ l ∈ [(⟨10, 5, 0, 0⟩ : ASS_Image), ⟨4, 4, 20, 3⟩], ∃ r ∈ [(⟨10, 5, 0, 0⟩ : ASS_Image), ⟨4, 4, 20, 3⟩],
      (measureBox [⟨10, 5, 0, 0⟩, ⟨4, 4, 20, 3⟩]).width = r.dst_x + r.w - l.dst_x := by
  refine ⟨by decide, ?_⟩
  obtain ⟨l, hl, _, _, r, hr, _, _, _, _, hw, _⟩ :=
    box_tight [⟨10, 5, 0, 0⟩, ⟨4, 4, 20, 3⟩] (by decide) (by decide) (by decide) (by decide)
  exact ⟨l, hl, r, hr, hw⟩

/-- C9 (as stated, refuted). The tiles of `tallChain` are 32-bit values, and the
call that renders them for its one event succeeds and records the height `-1`
for it. -/
theorem box_nonneg_counterexample :
    (∀ t ∈ tallChain, tileInt32 t) ∧
    (measure_subtitle_dimensions tallEnv).1 =
      { lines := some [{ text := some "a", dimensions := { width := 1, height := -1 },
                         start_time := 0, end_time := 1000 }],
        count := 1 } ∧
    ¬ (0 ≤ (measureBox tallChain).width ∧ 0 ≤ (measureBox tallChain).height) := by
  decide

/-- C9 (amended). For a chain of 32-bit tiles in which the horizontal and the
vertical span of the tiles with nonzero width and height (right edge
`x + w` and bottom edge `y + h` reduced modulo 2^32, as the code computes
them) are at most `INT_MAX`, the recorded width and height are both `≥ 0`. -/
theorem box_nonneg (img : List ASS_Image)
    (hty : ∀ t ∈ img, tileInt32 t)
    (hspan : ∀ s ∈ img, ∀ t ∈ img, (s.w ≠ 0 ∧ s.h ≠ 0) → (t.w ≠ 0 ∧ t.h ≠ 0) →
      wrap32 (t.dst_x + t.w) - s.dst_x ≤ INT_MAX ∧ wrap32 (t.dst_y + t.h) - s.dst_y ≤ INT_MAX) :
    0 ≤ (measureBox img).width ∧ 0 ≤ (measureBox img).height := by
  have hM : INT_MAX = 2147483647 := rfl
  have hm : INT_MIN = -2147483648 := rfl
  unfold measureBox boxOfBounds
  split_ifs with hc
  · obtain ⟨hcx, hcy⟩ := hc
    unfold scanImages at hcx hcy ⊢
    have hx : (List.foldl updateBounds initBounds img).x_max -
        (List.foldl updateBounds initBounds img).x_min ≤ INT_MAX := by
      have a3 := (foldl_x_min img initBounds).2.2
      have c3 := (foldl_x_max img initBounds).2.2
      rcases a3 with a | ⟨s, hs, hss, es⟩
      · have a' : (List.foldl updateBounds initBounds img).x_min = INT_MAX := a
        rcases c3 with c | ⟨t, ht, hst, et⟩
        · have c' : (List.foldl updateBounds initBounds img).x_max = INT_MIN := c
          omega
        · have := (wrap32_range (t.dst_x + t.w)).2
          omega
      · rcases c3 with c | ⟨t, ht, hst, et⟩
        · have c' : (List.foldl updateBounds initBounds img).x_max = INT_MIN := c
          have := (hty s hs).2.2.1.1
          omega
        · have := (hspan s hs t ht ((skipped_eq_false s).1 hss) ((skipped_eq_false t).1 hst)).1
          omega
    have hy : (List.foldl updateBounds initBounds img).y_max -
        (List.foldl updateBounds initBounds img).y_min ≤ INT_MAX := by
      have a3 := (foldl_y_min img initBounds).2.2
      have c3 := (foldl_y_max img initBounds).2.2
      rcases a3 with a | ⟨s, hs, hss, es⟩
      · have a' : (List.foldl updateBounds initBounds img).y_min = INT_MAX := a
        rcases c3 with c | ⟨t, ht, hst, et⟩
        · have c' : (List.foldl updateBounds initBounds img).y_max = INT_MIN := c
          omega
        · have := (wrap32_range (t.dst_y + t.h)).2
          omega
      · rcases c3 with c | ⟨t, ht, hst, et⟩
        · have c' : (List.foldl updateBounds initBounds img).y_max = INT_MIN := c
          have := (hty s hs).2.2.2.1
          omega
        · have := (hspan s hs t ht ((skipped_eq_false s).1 hss) ((skipped_eq_false t).1 hst)).2
          omega
    simp only
    rw [wrap32_of_range _ (by omega) hx, wrap32_of_range _ (by omega) hy]
    constructor <;> omega
  · simp

/-- C9 (witness): the two tiles of the specification meet the hypotheses. -/
theorem box_nonneg_witness :
    0 ≤ (measureBox [⟨10, 5, 0, 0⟩, ⟨4, 4, 20, 3⟩]).width ∧
    0 ≤ (measureBox [⟨10, 5, 0, 0⟩, ⟨4, 4, 20, 3⟩]).height :=
  box_nonneg [⟨10, 5, 0, 0⟩, ⟨4, 4, 20, 3⟩] (by decide) (by decide)

/-- Chains whose tiles with nonzero width and height agree up to order give
the same bounds. -/
theorem scanImages_congr (img₁ img₂ : List ASS_Image)
    (h : (img₁.filter (fun t => !skipped t)).Perm (img₂.filter (fun t => !skipped t))) :
    scanImages img₁ = scanImages img₂ := by
  unfold scanImages
  rw [foldl_filter img₁, foldl_filter img₂]
  exact List.Perm.foldl_eq' h (fun x _ y _ z => updateBounds_comm z x y) initBounds

/-- C10. The recorded width and height do not depend on the order of the chain
nor on its tiles of zero width or zero height: a permutation of a chain gives
the same result; so does a chain with one more tile of zero width or zero
height, wherever it is inserted (read right to left: removed); and, in
general, so do two chains whose tiles of nonzero width and height are the
same up to order. -/
theorem box_perm_invariant :
    (∀ img₁ img₂ : List ASS_Image, img₁.Perm img₂ → measureBox img₁ = measureBox img₂) ∧
    (∀ (pre post : List ASS_Image) (d : ASS_Image), (d.w = 0 ∨ d.h = 0) →
      measureBox (pre ++ d :: post) = measureBox (pre ++ post)) ∧
    (∀ img₁ img₂ : List ASS_Image,
      (img₁.filter (fun t => !skipped t)).Perm (img₂.filter (fun t => !skipped t)) →
      measureBox img₁ = measureBox img₂) := by
  refine ⟨fun img₁ img₂ h => ?_, fun pre post d hd => ?_, fun img₁ img₂ h => ?_⟩
  · exact congrArg boxOfBounds (scanImages_congr img₁ img₂ (h.filter _))
  · have hs : skipped d = true := (skipped_eq_true d).2 hd
    refine congrArg boxOfBounds (scanImages_congr _ _ ?_)
    simp [List.filter_cons, hs]
  · exact congrArg boxOfBounds (scanImages_congr img₁ img₂ h)

/-- C10 (witness): the two tiles of the specification with a tile of zero
width between them, against the same two tiles in the other order. -/
theorem box_perm_invariant_witness :
    measureBox [⟨10, 5, 0, 0⟩, ⟨0, 9, 100, 100⟩, ⟨4, 4, 20, 3⟩] =
      measureBox [⟨4, 4, 20, 3⟩, ⟨10, 5, 0, 0⟩] :=
  box_perm_invariant.2.2 _ _ (by decide)

/-! ## The claims on the whole function -/

/-- C2. In a call where the setup and every allocation succeed, an event
whose rendered chain is empty or has only tiles of zero width or zero height
still gets its record (the call succeeds with `count = N`), and the record
has width 0 and height 0. -/
theorem degenerate_event_zero_box (env : Env) (events : List ASS_Event) (i : Nat)
    (hl : env.libraryInit = true) (hr : env.rendererInit = true)
    (hf : env.readFile = some events) (hc : env.callocOk = true)
    (hs : ∀ j, j < events.length → env.strdupOk j = true)
    (hi : i < events.length)
    (hdeg : ∀ t ∈ env.renderFrame i events[i].Start, t.w = 0 ∨ t.h = 0) :
    ∃ lines line, (measure_subtitle_dimensions env).1.lines = some lines ∧
      (measure_subtitle_dimensions env).1.count = events.length ∧
      lines[i]? = some line ∧ line.text = some events[i].Text ∧
      line.dimensions = { width := 0, height := 0 } := by
  rw [measure_success env events hl hr hf hc hs]
  refine ⟨_, lineOfEvent env i events[i], rfl, rfl, ?_, rfl, ?_⟩
  · rw [linesFrom_getElem?, List.getElem?_eq_getElem hi]
    simp
  · have hscan : ∀ (l : List ASS_Image) (b : Bounds), (∀ t ∈ l, t.w = 0 ∨ t.h = 0) →
        l.foldl updateBounds b = b := by
      intro l
      induction l with
      | nil => intro b _; rfl
      | cons a l ih =>
        intro b h
        rw [List.foldl_cons,
          updateBounds_skipped b a ((skipped_eq_true a).2 (h a (List.mem_cons_self a l)))]
        exact ih b (fun t ht => h t (List.mem_cons_of_mem a ht))
    show measureBox (env.renderFrame i events[i].Start) = _
    unfold measureBox scanImages
    rw [hscan _ _ hdeg]
    decide

/-- C2 (witness): the second event of `threeEventsEnv` renders one tile of
zero width; its record has the box 0 by 0. -/
theorem degenerate_event_zero_box_witness :
    ∃ lines line, (measure_subtitle_dimensions threeEventsEnv).1.lines = some lines ∧
      (measure_subtitle_dimensions threeEventsEnv).1.count = 3 ∧
      lines[1]? = some line ∧ line.text = some "" ∧
      line.dimensions = { width := 0, height := 0 } :=
  degenerate_event_zero_box threeEventsEnv
    [{ Start := 0, Duration := 1500, Text := "one" },
     { Start := 2000, Duration := 500, Text := "" },
     { Start := 3000, Duration := 1000, Text := "three" }] 1
    rfl rfl rfl rfl (fun _ _ => rfl) (by decide) (by decide)

/-- C3. For a loaded track of `N` events (`N ≥ 1` in particular), when the
array allocation and every text copy succeed, the result has `count = N` and
an array of `N` records, and record `i` holds the text and the start time of
event `i`. -/
theorem records_in_event_order (env : Env) (events : List ASS_Event)
    (hl : env.libraryInit = true) (hr : env.rendererInit = true)
    (hf : env.readFile = some events) (hc : env.callocOk = true)
    (hs : ∀ j, j < events.length → env.strdupOk j = true) :
    ∃ lines, (measure_subtitle_dimensions env).1.lines = some lines ∧
      (measure_subtitle_dimensions env).1.count = events.length ∧
      lines.length = events.length ∧
      ∀ (i : Nat) (hi : i < events.length), ∃ line, lines[i]? = some line ∧
        line.text = some events[i].Text ∧ line.start_time = events[i].Start := by
  rw [measure_success env events hl hr hf hc hs]
  refine ⟨_, rfl, rfl, linesFrom_length env events 0, fun i hi => ?_⟩
  refine ⟨lineOfEvent env i events[i], ?_, rfl, rfl⟩
  rw [linesFrom_getElem?, List.getElem?_eq_getElem hi]
  simp

/-- C3 (witness): the three events of `threeEventsEnv`. -/
theorem records_in_event_order_witness :
    ∃ lines, (measure_subtitle_dimensions threeEventsEnv).1.lines = some lines ∧
      (measure_subtitle_dimensions threeEventsEnv).1.count = 3 ∧
      lines.length = 3 ∧
      ∀ (i : Nat) (hi : i < 3), ∃ line, lines[i]? = some line ∧
        line.text = some ([({ Start := 0, Duration := 1500, Text := "one" } : ASS_Event),
          { Start := 2000, Duration := 500, Text := "" },
          { Start := 3000, Duration := 1000, Text := "three" }][i]).Text ∧
        line.start_time = ([({ Start := 0, Duration := 1500, Text := "one" } : ASS_Event),
          { Start := 2000, Duration := 500, Text := "" },
          { Start := 3000, Duration := 1000, Text := "three" }][i]).Start :=
  records_in_event_order threeEventsEnv
    [{ Start := 0, Duration := 1500, Text := "one" },
     { Start := 2000, Duration := 500, Text := "" },
     { Start := 3000, Duration := 1000, Text := "three" }]
    rfl rfl rfl rfl (fun _ _ => rfl)

/-- C4. In every result with a live array, record `i` has the start time of
event `i` and, as end time, the 64-bit sum of the start time and the duration
of event `i`; whenever the sum of the two fits in 64 bits, that is their sum
exactly. -/
theorem end_time_is_start_plus_duration (env : Env) (lines : List SubtitleLineInfo)
    (h : (measure_subtitle_dimensions env).1.lines = some lines) :
    ∃ events, env.readFile = some events ∧ lines.length = events.length ∧
      ∀ (i : Nat) (hi : i < events.length), ∃ line, lines[i]? = some line ∧
        line.start_time = events[i].Start ∧
        line.end_time = wrap64 (line.start_time + events[i].Duration) ∧
        (-9223372036854775808 ≤ events[i].Start + events[i].Duration →
          events[i].Start + events[i].Duration ≤ 9223372036854775807 →
          line.end_time = line.start_time + events[i].Duration) := by
  obtain ⟨events, hf, hlines, _⟩ := measure_lines_some env lines h
  refine ⟨events, hf, ?_, fun i hi => ?_⟩
  · rw [hlines, linesFrom_length]
  · refine ⟨lineOfEvent env i events[i], ?_, rfl, rfl, fun h0 h1 => ?_⟩
    · rw [hlines, linesFrom_getElem?, List.getElem?_eq_getElem hi]
      simp
    · show wrap64 (events[i].Start + events[i].Duration) = _
      rw [wrap64_of_range _ h0 h1]
      rfl

/-- C4 (witness): the records of `threeEventsEnv` end at 1500, 2500 and 4000. -/
theorem end_time_is_start_plus_duration_witness :
    (measure_subtitle_dimensions threeEventsEnv).1.lines =
      some [{ text := some "one", dimensions := { width := 24, height := 7 },
              start_time := 0, end_time := 1500 },
            { text := some "", dimensions := { width := 0, height := 0 },
              start_time := 2000, end_time := 2500 },
            { text := some "three", dimensions := { width := 24, height := 7 },
              start_time := 3000, end_time := 4000 }] ∧
    ∃ events, threeEventsEnv.readFile = some events ∧ 3 = events.length :=
  ⟨by decide,
    (end_time_is_start_plus_duration threeEventsEnv _
      (by decide : (measure_subtitle_dimensions threeEventsEnv).1.lines =
        some [{ text := some "one", dimensions := { width := 24, height := 7 },
                start_time := 0, end_time := 1500 },
              { text := some "", dimensions := { width := 0, height := 0 },
                start_time := 2000, end_time := 2500 },
              { text := some "three", dimensions := { width := 24, height := 7 },
                start_time := 3000, end_time := 4000 }])).imp
      (fun _ h => ⟨h.1, h.2.1⟩)⟩

/-- C5 (as stated, refuted). On a track without events, when the zero-size
`calloc` returns a non-`NULL` pointer the function returns `count = 0` with
that pointer as `lines`: not the `{NULL, 0}` of a setup failure. -/
theorem zero_events_counterexample :
    noEventsEnv.readFile = some [] ∧
    (measure_subtitle_dimensions noEventsEnv).1 = { lines := some [], count := 0 } ∧
    (measure_subtitle_dimensions noEventsEnv).1.lines ≠ none ∧
    (measure_subtitle_dimensions noEventsEnv).1 ≠ (measure_subtitle_dimensions missingFileEnv).1 := by
  decide

/-- C5 (amended). On a loaded track without events the function returns
`count = 0`; `lines` is `NULL` exactly when the zero-size `calloc` returned
`NULL`, and is the empty array it returned otherwise. In both cases the test
the callers apply, `count == 0 || lines == NULL`, reports a failure, as it does
for the `{NULL, 0}` of a setup failure. -/
theorem zero_events_result (env : Env)
    (hl : env.libraryInit = true) (hr : env.rendererInit = true)
    (hf : env.readFile = some []) :
    (measure_subtitle_dimensions env).1.count = 0 ∧
    ((measure_subtitle_dimensions env).1.lines = none ↔ env.callocOk = false) ∧
    (env.callocOk = true → (measure_subtitle_dimensions env).1.lines = some []) ∧
    callerSeesFailure (measure_subtitle_dimensions env).1 = true ∧
    callerSeesFailure emptyResult = true := by
  by_cases hc : env.callocOk = true
  · simp [measure_subtitle_dimensions, hl, hr, hf, hc, eventLoop, callerSeesFailure, emptyResult]
  · simp [measure_subtitle_dimensions, hl, hr, hf, hc, callerSeesFailure, emptyResult]

/-- C5 (witness): `noEventsEnv`, where `calloc` returns a non-`NULL` pointer. -/
theorem zero_events_result_witness :
    (measure_subtitle_dimensions noEventsEnv).1.count = 0 ∧
    ((measure_subtitle_dimensions noEventsEnv).1.lines = none ↔ noEventsEnv.callocOk = false) ∧
    (noEventsEnv.callocOk = true → (measure_subtitle_dimensions noEventsEnv).1.lines = some []) ∧
    callerSeesFailure (measure_subtitle_dimensions noEventsEnv).1 = true ∧
    callerSeesFailure emptyResult = true :=
  zero_events_result noEventsEnv rfl rfl rfl

/-- C6. For a loaded track of `N` events and any outcome of the allocations,
the function returns either the empty result `{NULL, 0}` or a result with
`count = N` and an array of `N` records whose texts are all non-`NULL`. When
the text copy of event `i` is the first to fail, it returns the empty result,
and between the `i` copies and the release of the handles it frees exactly the
texts of the records `0 .. i-1`, each once, and then the array. -/
theorem all_or_nothing (env : Env) (events : List ASS_Event)
    (hl : env.libraryInit = true) (hr : env.rendererInit = true)
    (hf : env.readFile = some events) :
    ((measure_subtitle_dimensions env).1 = emptyResult ∨
      ((measure_subtitle_dimensions env).1.count = events.length ∧
        ∃ lines, (measure_subtitle_dimensions env).1.lines = some lines ∧
          lines.length = events.length ∧ ∀ line ∈ lines, line.text ≠ none)) ∧
    (∀ i, i < events.length → env.callocOk = true →
      (∀ j, j < i → env.strdupOk j = true) → env.strdupOk i = false →
      (measure_subtitle_dimensions env).1 = emptyResult ∧
      (measure_subtitle_dimensions env).2 =
        [Op.acquire Handle.library, Op.acquire Handle.renderer, Op.acquire Handle.track,
            Op.calloc] ++ (List.range i).map Op.strdup ++ (List.range i).map Op.freeText ++
          [Op.freeLines, Op.release Handle.track, Op.release Handle.renderer,
            Op.release Handle.library]) := by
  constructor
  · rcases measure_result env events hl hr hf with h | ⟨_, h⟩
    · exact Or.inl h
    · right
      rw [h]
      exact ⟨rfl, _, rfl, linesFrom_length env events 0, linesFrom_text env events 0⟩
  · intro i hi hc hs hfail
    rw [measure_copy_failure env events i hl hr hf hc hi hs hfail]
    exact ⟨rfl, rfl⟩

/-- C6 (witness): in `thirdCopyFailsEnv` two texts are copied, the third copy
fails; the two texts and the array are freed and the empty result returned. -/
theorem all_or_nothing_witness :
    (measure_subtitle_dimensions thirdCopyFailsEnv).1 = emptyResult ∧
    (measure_subtitle_dimensions thirdCopyFailsEnv).2 =
      [Op.acquire Handle.library, Op.acquire Handle.renderer, Op.acquire Handle.track,
        Op.calloc, Op.strdup 0, Op.strdup 1, Op.freeText 0, Op.freeText 1,
        Op.freeLines, Op.release Handle.track, Op.release Handle.renderer,
        Op.release Handle.library] :=
  (all_or_nothing thirdCopyFailsEnv
    [{ Start := 0, Duration := 1500, Text := "one" },
     { Start := 2000, Duration := 500, Text := "" },
     { Start := 3000, Duration := 1000, Text := "three" }] rfl rfl rfl).2 2
    (by decide) rfl (by decide) (by decide)

/-- C7. In every call, the handle operations of the trace are the
acquisitions of the handles the engine handed out (library, renderer, track,
up to the first failure) followed by the releases of the same handles in the
reverse order, each once; replayed against the stack of live handles, every
release releases the handle acquired last and no handle is live at the end.
Whenever the library, the renderer, the track or the array cannot be
obtained, the function returns the empty result `{NULL, 0}`. -/
theorem handles_released_in_reverse (env : Env) :
    handleOps (measure_subtitle_dimensions env).2 =
      (acquiredBy env).map Op.acquire ++ (acquiredBy env).reverse.map Op.release ∧
    List.IsPrefix (acquiredBy env) [Handle.library, Handle.renderer, Handle.track] ∧
    replayHandles [] (handleOps (measure_subtitle_dimensions env).2) = some [] ∧
    replayHandles [] (measure_subtitle_dimensions env).2 = some [] ∧
    ((env.libraryInit = false ∨ env.rendererInit = false ∨ env.readFile = none ∨
        env.callocOk = false) → (measure_subtitle_dimensions env).1 = emptyResult) := by
  have key : handleOps (measure_subtitle_dimensions env).2 =
      (acquiredBy env).map Op.acquire ++ (acquiredBy env).reverse.map Op.release := by
    by_cases hl : env.libraryInit = true
    · by_cases hr : env.rendererInit = true
      · cases hf : env.readFile with
        | none => simp [measure_subtitle_dimensions, acquiredBy, hl, hr, hf, handleOps]
        | some events =>
          by_cases hc : env.callocOk = true
          · simp only [measure_subtitle_dimensions, acquiredBy, hl, hr, hf, hc, Bool.not_true,
              Bool.false_eq_true, if_false]
            rw [eventLoop_handleOps]
            simp [handleOps]
          · simp [measure_subtitle_dimensions, acquiredBy, hl, hr, hf, hc, handleOps]
      · simp [measure_subtitle_dimensions, acquiredBy, hl, hr, handleOps]
    · simp [measure_subtitle_dimensions, acquiredBy, hl, handleOps]
  have hpre : List.IsPrefix (acquiredBy env) [Handle.library, Handle.renderer, Handle.track] := by
    unfold acquiredBy
    split_ifs
    · exact List.nil_prefix
    · exact ⟨[Handle.renderer, Handle.track], rfl⟩
    · cases env.readFile with
      | none => exact ⟨[Handle.track], rfl⟩
      | some _ => exact List.prefix_refl _
  have hreplay : replayHandles []
      ((acquiredBy env).map Op.acquire ++ (acquiredBy env).reverse.map Op.release) = some [] := by
    unfold acquiredBy
    split_ifs
    · decide
    · decide
    · cases env.readFile with
      | none => decide
      | some _ => exact (by decide : replayHandles []
          ([Handle.library, Handle.renderer, Handle.track].map Op.acquire ++
            [Handle.library, Handle.renderer, Handle.track].reverse.map Op.release) = some [])
  refine ⟨key, hpre, by rw [key]; exact hreplay, ?_, ?_⟩
  · rw [replayHandles_handleOps, key]
    exact hreplay
  · intro h
    rcases h with h | h | h | h
    · simp [measure_subtitle_dimensions, h]
    · by_cases hl : env.libraryInit = true
      · simp [measure_subtitle_dimensions, hl, h]
      · simp [measure_subtitle_dimensions, hl]
    · by_cases hl : env.libraryInit = true
      · by_cases hr : env.rendererInit = true
        · simp [measure_subtitle_dimensions, hl, hr, h]
        · simp [measure_subtitle_dimensions, hl, hr]
      · simp [measure_subtitle_dimensions, hl]
    · by_cases hl : env.libraryInit = true
      · by_cases hr : env.rendererInit = true
        · cases hf : env.readFile with
          | none => simp [measure_subtitle_dimensions, hl, hr, hf]
          | some events => simp [measure_subtitle_dimensions, hl, hr, hf, h, emptyResult]
        · simp [measure_subtitle_dimensions, hl, hr]
      · simp [measure_subtitle_dimensions, hl]

/-! ## The claim on the bindings -/

/-- C8 (the code departs from the claim). When the core returns `count = 0`,
`MeasureSubtitleLines` of `ass_measure_binding.cpp`, called with a string and
two numbers, raises nothing and returns an empty array, where
`MeasureDimensions` of `addon.cpp` raises the error "Failed to measure
subtitle dimensions". So it is for the path of a file that does not exist,
for which the core returns `{NULL, 0}`. -/
theorem binding_silent_on_failure :
    (∀ (core : String → Int → Int → SubtitleRenderInfo) (path : String) (w h : Int),
      (core path w h).count = 0 →
      MeasureSubtitleLines core [JsArg.str path, JsArg.num w, JsArg.num h] =
        HostOutcome.array []) ∧
    (∀ (core : String → Int → Int → SubtitleRenderInfo) (path : String) (w h : Int),
      callerSeesFailure (core path w h) = true →
      MeasureDimensions core [JsArg.str path, JsArg.num w, JsArg.num h] =
        HostOutcome.error "Failed to measure subtitle dimensions") ∧
    (measure_subtitle_dimensions missingFileEnv).1 = emptyResult ∧
    MeasureSubtitleLines (fun _ _ _ => (measure_subtitle_dimensions missingFileEnv).1)
      [JsArg.str "missing.ass", JsArg.num 1920, JsArg.num 1080] = HostOutcome.array [] ∧
    MeasureDimensions (fun _ _ _ => (measure_subtitle_dimensions missingFileEnv).1)
      [JsArg.str "missing.ass", JsArg.num 1920, JsArg.num 1080] =
        HostOutcome.error "Failed to measure subtitle dimensions" := by
  refine ⟨fun core path w h hc => ?_, fun core path w h hc => ?_, by decide, by decide, by decide⟩
  · simp only [MeasureSubtitleLines, convertLines, hc, List.range_zero]
    rfl
  · have hc' : (core path w h).count = 0 ∨ (core path w h).lines = none := by
      simpa [callerSeesFailure] using hc
    simp [MeasureDimensions, hc']

end AssMeasure
